import Mathlib

/-!
Verification development for the campaign-analytics ingestion and
aggregation pipeline.

The Go source is shallowly embedded: machine timestamps become natural
numbers (seconds, with 0 standing for Go's zero `time.Time`), `Float64`
money amounts become exact rationals, UUID values are carried as their
canonical strings, and the converged (fully merged) contents of the two
ClickHouse `ReplacingMergeTree` tables are modelled as association lists
that keep, per sorting key, the row with the greatest version (the
later-inserted row winning ties), exactly as the merge algorithm does.
A ClickHouse materialized view is an insert trigger: its SELECT runs over
each inserted block alone, and the result rows are inserted into the
target table.  That per-block behaviour is modelled faithfully.
-/

namespace CampaignAnalytics

/-- UUID values are modelled by their canonical string form. -/
abbrev UUID := String

/-- `uuid.Nil`, the zero UUID, as rendered by `uuid.UUID.String()`. -/
def uuidNil : UUID := "00000000-0000-0000-0000-000000000000"

/-- `models.CampaignEvent` (internal/domain/models): one raw event from an
ad platform.  `eventTime`, `receivedAt`, `processedAt` are seconds with
0 = Go's zero time; `spend`/`revenue` (`Float64`) are exact rationals. -/
structure CampaignEvent where
  id : UUID
  campaignId : UUID
  platform : String
  eventType : String
  impressions : Int
  clicks : Int
  conversions : Int
  spend : Rat
  revenue : Rat
  eventTime : Nat
  region : String
  currency : String
  deduplicationKey : String
  receivedAt : Nat
  processedAt : Nat
deriving DecidableEq

/-- ClickHouse `toDate` applied to a DateTime: the calendar day, modelled
as the number of whole days since the epoch. -/
def toDate (t : Nat) : Nat := t / 86400

/-- The sorting key of `campaign_events`:
`ORDER BY (campaign_id, event_time, deduplication_key)`. -/
def eventOrderKey (e : CampaignEvent) : UUID × Nat × String :=
  (e.campaignId, e.eventTime, e.deduplicationKey)

/-- One insertion into the converged state of a ClickHouse
`ReplacingMergeTree` table: rows sharing the sorting key collapse to the
row with the greatest version, the later-inserted row winning ties. -/
def replacingInsert {α κ : Type} [DecidableEq κ] (key : α → κ) (ver : α → Nat)
    (tbl : List α) (x : α) : List α :=
  if ∃ r ∈ tbl, key r = key x then
    tbl.map (fun r => if key r = key x ∧ ver r ≤ ver x then x else r)
  else tbl ++ [x]

/-- Insertion into the converged `campaign_events` table,
`ENGINE = ReplacingMergeTree(processed_at)`. -/
def campaignEventsInsert (tbl : List CampaignEvent) (e : CampaignEvent) :
    List CampaignEvent :=
  replacingInsert eventOrderKey CampaignEvent.processedAt tbl e

/-- `models.CampaignInsights`: one row of the `campaign_insights`
aggregate table. -/
structure CampaignInsights where
  campaignId : UUID
  date : Nat
  platform : String
  region : String
  impressions : Int
  clicks : Int
  conversions : Int
  spend : Rat
  revenue : Rat
  ctr : Rat
  cpc : Rat
  cpa : Rat
  roas : Rat
  conversionRate : Rat
  updatedAt : Nat
deriving DecidableEq

/-- The sorting key of `campaign_insights`:
`ORDER BY (campaign_id, date, platform, region)`. -/
def insightKey (r : CampaignInsights) : UUID × Nat × String × String :=
  (r.campaignId, r.date, r.platform, r.region)

/-- Insertion into the converged `campaign_insights` table,
`ENGINE = ReplacingMergeTree(updated_at)`. -/
def campaignInsightsInsert (tbl : List CampaignInsights) (r : CampaignInsights) :
    List CampaignInsights :=
  replacingInsert insightKey CampaignInsights.updatedAt tbl r

/-- An aggregate row with the `updatedAt` field erased: the
"byte-identical excluding `updatedAt`" comparison view. -/
structure InsightData where
  campaignId : UUID
  date : Nat
  platform : String
  region : String
  impressions : Int
  clicks : Int
  conversions : Int
  spend : Rat
  revenue : Rat
  ctr : Rat
  cpc : Rat
  cpa : Rat
  roas : Rat
  conversionRate : Rat
deriving DecidableEq

/-- Erase `updatedAt` from an aggregate row. -/
def CampaignInsights.data (r : CampaignInsights) : InsightData :=
  { campaignId := r.campaignId, date := r.date, platform := r.platform
  , region := r.region, impressions := r.impressions, clicks := r.clicks
  , conversions := r.conversions, spend := r.spend, revenue := r.revenue
  , ctr := r.ctr, cpc := r.cpc, cpa := r.cpa, roas := r.roas
  , conversionRate := r.conversionRate }

/-- `sum(impressions)` over a set of events. -/
def sumImpressions (evs : List CampaignEvent) : Int :=
  evs.foldl (fun a e => a + e.impressions) 0

/-- `sum(clicks)` over a set of events. -/
def sumClicks (evs : List CampaignEvent) : Int :=
  evs.foldl (fun a e => a + e.clicks) 0

/-- `sum(conversions)` over a set of events. -/
def sumConversions (evs : List CampaignEvent) : Int :=
  evs.foldl (fun a e => a + e.conversions) 0

/-- `sum(spend)` over a set of events. -/
def sumSpend (evs : List CampaignEvent) : Rat :=
  evs.foldl (fun a e => a + e.spend) 0

/-- `sum(revenue)` over a set of events. -/
def sumRevenue (evs : List CampaignEvent) : Rat :=
  evs.foldl (fun a e => a + e.revenue) 0

/-- The `GROUP BY campaign_id, toDate(event_time), platform, region`
bucket of an event. -/
def bucketKey (e : CampaignEvent) : UUID × Nat × String × String :=
  (e.campaignId, toDate e.eventTime, e.platform, e.region)

/-- The distinct bucket keys of a set of events, in first-occurrence
order. -/
def bucketKeys (evs : List CampaignEvent) : List (UUID × Nat × String × String) :=
  evs.foldl (fun ks e => if bucketKey e ∈ ks then ks else ks ++ [bucketKey e]) []

/-- The events of a set falling in one bucket. -/
def bucketEvents (evs : List CampaignEvent) (k : UUID × Nat × String × String) :
    List CampaignEvent :=
  evs.filter (fun e => decide (bucketKey e = k))

/-- One output row of `mv_campaign_daily_aggregation`
(internal/infrastructure/database/clickhouse.go, `InitSchema`): the
SELECT's aggregate and ratio expressions over the events of one bucket. -/
def mvAggregationRow (evs : List CampaignEvent)
    (k : UUID × Nat × String × String) (updatedAt : Nat) : CampaignInsights :=
  { campaignId := k.1
  , date := k.2.1
  , platform := k.2.2.1
  , region := k.2.2.2
  , impressions := sumImpressions evs
  , clicks := sumClicks evs
  , conversions := sumConversions evs
  , spend := sumSpend evs
  , revenue := sumRevenue evs
  , ctr := if sumImpressions evs > 0
      then (sumClicks evs : Rat) / (sumImpressions evs : Rat) else 0
  , cpc := if sumClicks evs > 0
      then sumSpend evs / (sumClicks evs : Rat) else 0
  , cpa := if sumConversions evs > 0
      then sumSpend evs / (sumConversions evs : Rat) else 0
  , roas := if sumSpend evs > 0
      then sumRevenue evs / sumSpend evs else 0
  , conversionRate := if sumClicks evs > 0
      then (sumConversions evs : Rat) / (sumClicks evs : Rat) else 0
  , updatedAt := updatedAt }

/-- The rows the materialized view emits for one inserted block: the view
query runs over the block alone, grouped by bucket, `now()` stamped as
`updatedAt`. -/
def mvBlockRows (block : List CampaignEvent) (updatedAt : Nat) :
    List CampaignInsights :=
  (bucketKeys block).map (fun k => mvAggregationRow (bucketEvents block k) k updatedAt)

/-- One output row of the `INSERT INTO campaign_insights SELECT ...`
issued by `AggregationService.TriggerReaggregation`: its own aggregate
and ratio expressions over the events of one bucket (kept as a separate
definition, mirroring the separate SQL text in the service). -/
def reaggregationRow (evs : List CampaignEvent)
    (k : UUID × Nat × String × String) (updatedAt : Nat) : CampaignInsights :=
  { campaignId := k.1
  , date := k.2.1
  , platform := k.2.2.1
  , region := k.2.2.2
  , impressions := sumImpressions evs
  , clicks := sumClicks evs
  , conversions := sumConversions evs
  , spend := sumSpend evs
  , revenue := sumRevenue evs
  , ctr := if sumImpressions evs > 0
      then (sumClicks evs : Rat) / (sumImpressions evs : Rat) else 0
  , cpc := if sumClicks evs > 0
      then sumSpend evs / (sumClicks evs : Rat) else 0
  , cpa := if sumConversions evs > 0
      then sumSpend evs / (sumConversions evs : Rat) else 0
  , roas := if sumSpend evs > 0
      then sumRevenue evs / sumSpend evs else 0
  , conversionRate := if sumClicks evs > 0
      then (sumConversions evs : Rat) / (sumClicks evs : Rat) else 0
  , updatedAt := updatedAt }

/-- The `WHERE campaign_id = ? AND event_time >= ? AND event_time <= ?`
clause of the reaggregation query. -/
def reaggMatched (events : List CampaignEvent) (campaignId : UUID)
    (startDate endDate : Nat) : List CampaignEvent :=
  events.filter
    (fun e => decide (e.campaignId = campaignId ∧
      startDate ≤ e.eventTime ∧ e.eventTime ≤ endDate))

/-- The rows produced by the reaggregation query: events of the campaign
with `event_time` in `[startDate, endDate]`, grouped by bucket. -/
def reaggregationRows (events : List CampaignEvent) (campaignId : UUID)
    (startDate endDate : Nat) (updatedAt : Nat) : List CampaignInsights :=
  (bucketKeys (reaggMatched events campaignId startDate endDate)).map
    (fun k => reaggregationRow
      (bucketEvents (reaggMatched events campaignId startDate endDate) k) k updatedAt)

/-- The modelled ClickHouse state: the converged contents of the two
tables plus a logical clock standing for `now()` (strictly increasing
across statements). -/
structure CHState where
  campaignEvents : List CampaignEvent
  campaignInsights : List CampaignInsights
  clock : Nat
deriving DecidableEq

/-- The empty database. -/
def CHState.init : CHState := ⟨[], [], 0⟩

/-- One `INSERT` of a block of events into `campaign_events`: the rows
join the replacing merge of the base table, and the materialized view
aggregates the block alone into `campaign_insights`. -/
def CHState.insertEvents (st : CHState) (block : List CampaignEvent) : CHState :=
  { campaignEvents := block.foldl campaignEventsInsert st.campaignEvents
  , campaignInsights :=
      (mvBlockRows block st.clock).foldl campaignInsightsInsert st.campaignInsights
  , clock := st.clock + 1 }

/-- `AggregationService.TriggerReaggregation`: insert the reaggregation
query's rows into `campaign_insights` (the base table is untouched; the
materialized view does not fire on inserts into `campaign_insights`). -/
def CHState.triggerReaggregation (st : CHState) (campaignId : UUID)
    (startDate endDate : Nat) : CHState :=
  { campaignEvents := st.campaignEvents
  , campaignInsights :=
      (reaggregationRows st.campaignEvents campaignId startDate endDate
        st.clock).foldl campaignInsightsInsert st.campaignInsights
  , clock := st.clock + 1 }

/-- The converged aggregate rows of a state for one bucket key. -/
def CHState.insightsFor (st : CHState) (k : UUID × Nat × String × String) :
    List CampaignInsights :=
  st.campaignInsights.filter (fun r => decide (insightKey r = k))

/-- The converged event-log rows of a state for one sorting key. -/
def CHState.eventsFor (st : CHState) (k : UUID × Nat × String) :
    List CampaignEvent :=
  st.campaignEvents.filter (fun e => decide (eventOrderKey e = k))

/-! ## Event validation and the consumer pipeline (services, part_008) -/

/-- The validation errors of `EventProcessor.validateEvent`. -/
inductive ValidationErr where
  | missingCampaignID
  | missingPlatform
  | missingEventTime
  | missingDeduplicationKey
deriving DecidableEq

/-- The clamping and defaulting half of `EventProcessor.validateEvent`:
negative metrics become 0, `eventType`/`region`/`currency`/`receivedAt`
receive their defaults when unset. -/
def clampAndDefault (now : Nat) (e : CampaignEvent) : CampaignEvent :=
  let e := if e.impressions < 0 then { e with impressions := 0 } else e
  let e := if e.clicks < 0 then { e with clicks := 0 } else e
  let e := if e.conversions < 0 then { e with conversions := 0 } else e
  let e := if e.spend < 0 then { e with spend := 0 } else e
  let e := if e.revenue < 0 then { e with revenue := 0 } else e
  let e := if e.eventType = "" then { e with eventType := "stats" } else e
  let e := if e.region = "" then { e with region := "all" } else e
  let e := if e.currency = "" then { e with currency := "USD" } else e
  let e := if e.receivedAt = 0 then { e with receivedAt := now } else e
  e

/-- `EventProcessor.validateEvent`: generates an id if unset, rejects on
the first absent required field (campaignId, platform, eventTime,
deduplicationKey, in that order), then clamps negative metrics to 0 and
fills defaults.  `genId` stands for `uuid.New()` and `now` for
`time.Now()`. -/
def validateEvent (genId : UUID) (now : Nat) (e : CampaignEvent) :
    Except ValidationErr CampaignEvent :=
  let e := if e.id = uuidNil then { e with id := genId } else e
  if e.campaignId = uuidNil then .error .missingCampaignID
  else if e.platform = "" then .error .missingPlatform
  else if e.eventTime = 0 then .error .missingEventTime
  else if e.deduplicationKey = "" then .error .missingDeduplicationKey
  else .ok (clampAndDefault now e)

/-- The observable steps of processing one broker message. -/
inductive Action where
  | dedupCheck (key : String)
  | validate
  | store (e : CampaignEvent)
  | markProcessed (key : String)
  | commit
deriving DecidableEq

/-- The failure modes of `EventProcessor.ProcessEvent`. -/
inductive ProcErr where
  | unmarshalFailed
  | invalid (err : ValidationErr)
  | storeFailed
deriving DecidableEq

/-- The environment of one `ProcessEvent` call: the message's parse
result, the Deduplication Store's answer, whether the ClickHouse insert
succeeds, and the nondeterministic inputs (`uuid.New()`, `time.Now()`). -/
structure Env where
  raw : Option CampaignEvent
  dedupAnswer : Bool
  storeOk : Bool
  genId : UUID
  nowReceived : Nat
  nowProcessed : Nat

/-- `EventProcessor.ProcessEvent`: unmarshal, deduplication-store check
(skip if already processed), validate, set `processedAt`, store in
ClickHouse, then mark the deduplication key processed.  Returns the trace
of performed steps, the result, and the database state after the call. -/
def processEvent (env : Env) (st : CHState) :
    List Action × Option ProcErr × CHState :=
  match env.raw with
  | none => ([], some .unmarshalFailed, st)
  | some ev =>
    let tr := [Action.dedupCheck ev.deduplicationKey]
    if env.dedupAnswer then (tr, none, st)
    else
      let tr := tr ++ [Action.validate]
      match validateEvent env.genId env.nowReceived ev with
      | .error verr => (tr, some (.invalid verr), st)
      | .ok ev1 =>
        let ev2 := { ev1 with processedAt := env.nowProcessed }
        let tr := tr ++ [Action.store ev2]
        if env.storeOk then
          (tr ++ [Action.markProcessed ev2.deduplicationKey], none,
            st.insertEvents [ev2])
        else (tr, some .storeFailed, st)

/-- One iteration of `Worker.Start` for one delivered message: process
it, and commit the broker offset exactly when processing reported
success. -/
def workerStep (env : Env) (st : CHState) : List Action × CHState :=
  match processEvent env st with
  | (tr, none, st') => (tr ++ [Action.commit], st')
  | (tr, some _, st') => (tr, st')

/-! ## The insights read path (`AggregationService.GetCampaignInsights`) -/

/-- Outcome of one `GetCampaignInsights` call: the returned rows, whether
the database was queried, and the value written to the cache (if any). -/
structure QueryOutcome where
  result : List CampaignInsights
  usedDb : Bool
  cacheWrite : Option (List CampaignInsights)
deriving DecidableEq

/-- `AggregationService.GetCampaignInsights`, cache logic: a cached value
counts as a hit only when it deserialized without error (`cached = some v`)
and is non-empty; otherwise the database is queried and the rows are
cached only when at least one row came back. -/
def getCampaignInsights (cached : Option (List CampaignInsights))
    (dbRows : List CampaignInsights) : QueryOutcome :=
  match cached with
  | some v =>
      if v.length > 0 then ⟨v, false, none⟩
      else ⟨dbRows, true, if dbRows.length > 0 then some dbRows else none⟩
  | none => ⟨dbRows, true, if dbRows.length > 0 then some dbRows else none⟩

/-! ## Query building and cache keys (`AggregationService`) -/

/-- A Go `time.Time` restricted to what the insights code observes: the
calendar date (`Format("2006-01-02")`).  `Option` wraps it, `none`
standing for the zero time (`IsZero`). -/
structure GoDate where
  year : Nat
  month : Nat
  day : Nat
deriving DecidableEq

/-- Left-pad a number to two digits, as Go's date formatting does. -/
def pad2 (n : Nat) : String := if n < 10 then "0" ++ toString n else toString n

/-- Left-pad a number to four digits, as Go's date formatting does. -/
def pad4 (n : Nat) : String :=
  if n < 10 then "000" ++ toString n
  else if n < 100 then "00" ++ toString n
  else if n < 1000 then "0" ++ toString n
  else toString n

/-- `t.Format("2006-01-02")`. -/
def formatDate (d : GoDate) : String :=
  pad4 d.year ++ "-" ++ pad2 d.month ++ "-" ++ pad2 d.day

/-- `models.CampaignInsightsParams`. -/
structure CampaignInsightsParams where
  campaignId : UUID
  startDate : Option GoDate
  endDate : Option GoDate
  platform : Option String
  region : Option String
  granularity : String
deriving DecidableEq

/-- One positional argument of the built insights query. -/
inductive QueryArg where
  | str (v : String)
  | date (v : GoDate)
deriving DecidableEq

/-- The fixed SELECT prefix of `buildInsightsQuery` (whitespace
collapsed). -/
def baseInsightsQuery : String :=
  "SELECT campaign_id, date, platform, region, impressions, clicks, conversions, spend, revenue, ctr, cpc, cpa, roas, conversion_rate, updated_at FROM campaign_insights WHERE 1=1"

/-- `AggregationService.buildInsightsQuery`: the query text and its
positional arguments. -/
def buildInsightsQuery (params : CampaignInsightsParams) :
    String × List QueryArg :=
  let q := baseInsightsQuery
  let args : List QueryArg := []
  let (q, args) :=
    if params.campaignId ≠ uuidNil then
      (q ++ " AND campaign_id = ?", args ++ [QueryArg.str params.campaignId])
    else (q, args)
  let (q, args) :=
    match params.startDate with
    | some d => (q ++ " AND date >= ?", args ++ [QueryArg.date d])
    | none => (q, args)
  let (q, args) :=
    match params.endDate with
    | some d => (q ++ " AND date <= ?", args ++ [QueryArg.date d])
    | none => (q, args)
  let (q, args) :=
    match params.platform with
    | some p => (q ++ " AND platform = ?", args ++ [QueryArg.str p])
    | none => (q, args)
  let (q, args) :=
    match params.region with
    | some r =>
        if r ≠ "" then (q ++ " AND region = ?", args ++ [QueryArg.str r])
        else (q, args)
    | none => (q, args)
  (q ++ " ORDER BY date ASC", args)

/-- `AggregationService.getCacheKey`. -/
def getCacheKey (params : CampaignInsightsParams) : String :=
  let k := "insights:" ++ params.campaignId ++ ":"
  let k :=
    match params.startDate with
    | some d => k ++ "start:" ++ formatDate d ++ ":"
    | none => k
  let k :=
    match params.endDate with
    | some d => k ++ "end:" ++ formatDate d ++ ":"
    | none => k
  let k :=
    match params.platform with
    | some p => k ++ "platform:" ++ p ++ ":"
    | none => k
  let k :=
    match params.region with
    | some r => k ++ "region:" ++ r ++ ":"
    | none => k
  if params.granularity ≠ "" then
    k ++ "granularity:" ++ params.granularity ++ ":"
  else k

/-! ## Analysis definitions

Semantic views used by the theorems below: the updatedAt-erased key and
last-write-wins override on erased rows, the clock invariant of reachable
database states, and the flag/argument decomposition of the insights
query and cache key. -/

/-- Key of an updatedAt-erased aggregate row. -/
def dataKey (r : InsightData) : UUID × Nat × String × String :=
  (r.campaignId, r.date, r.platform, r.region)

/-- Unconditional last-write-wins insertion on erased rows. -/
def overrideRow (T : List InsightData) (r : InsightData) : List InsightData :=
  if ∃ x ∈ T, dataKey x = dataKey r then
    T.map (fun x => if dataKey x = dataKey r then r else x)
  else T ++ [r]

/-- All rows of a state's aggregate table are older than its clock.  This
holds in every reachable state, since each statement stamps `now()` and
the clock then advances. -/
def WellClocked (st : CHState) : Prop :=
  ∀ r ∈ st.campaignInsights, r.updatedAt < st.clock

instance (st : CHState) : Decidable (WellClocked st) :=
  inferInstanceAs (Decidable (∀ r ∈ st.campaignInsights, r.updatedAt < st.clock))

/-- A row's key is present in the table and every occurrence equals it. -/
def keyAbsorbed (T : List InsightData) (r : InsightData) : Prop :=
  (∃ x ∈ T, dataKey x = dataKey r) ∧ ∀ x ∈ T, dataKey x = dataKey r → x = r

/-- The five filter-presence flags of `buildInsightsQuery`. -/
def queryFlags (p : CampaignInsightsParams) : Bool × Bool × Bool × Bool × Bool :=
  (decide (p.campaignId ≠ uuidNil), p.startDate.isSome, p.endDate.isSome,
   p.platform.isSome,
   match p.region with | some r => decide (r ≠ "") | none => false)

/-- The optional filter fragments of the query text, as a function of the
five flags alone. -/
def renderFilters (f : Bool × Bool × Bool × Bool × Bool) : String :=
  (((((if f.1 then " AND campaign_id = ?" else "") ++
    (if f.2.1 then " AND date >= ?" else "")) ++
    (if f.2.2.1 then " AND date <= ?" else "")) ++
    (if f.2.2.2.1 then " AND platform = ?" else "")) ++
    (if f.2.2.2.2 then " AND region = ?" else ""))

/-- The query text as a function of the five flags alone. -/
def renderFlags (f : Bool × Bool × Bool × Bool × Bool) : String :=
  baseInsightsQuery ++ renderFilters f ++ " ORDER BY date ASC"

/-- Read one string argument off the argument list. -/
def argStr : List QueryArg → String × List QueryArg
  | QueryArg.str v :: rest => (v, rest)
  | args => ("", args)

/-- Read one date argument off the argument list. -/
def argDate : List QueryArg → Option GoDate × List QueryArg
  | QueryArg.date v :: rest => (some v, rest)
  | args => (none, args)

/-- The cache key reconstructed from the query's flags and arguments (plus
the two inputs the query does not determine: region presence and
granularity). -/
def keyFromParts (f : Bool × Bool × Bool × Bool × Bool) (args : List QueryArg)
    (regionPresent : Bool) (gran : String) : String :=
  let (cid, args) := if f.1 then argStr args else (uuidNil, args)
  let (sd, args) := if f.2.1 then argDate args else (none, args)
  let (ed, args) := if f.2.2.1 then argDate args else (none, args)
  let (pv, args) := if f.2.2.2.1 then argStr args else ("", args)
  let (rv, _) := if f.2.2.2.2 then argStr args else ("", args)
  "insights:" ++ cid ++ ":" ++
    (match sd with | some d => "start:" ++ formatDate d ++ ":" | none => "") ++
    (match ed with | some d => "end:" ++ formatDate d ++ ":" | none => "") ++
    (if f.2.2.2.1 then "platform:" ++ pv ++ ":" else "") ++
    (if regionPresent then "region:" ++ rv ++ ":" else "") ++
    (if gran ≠ "" then "granularity:" ++ gran ++ ":" else "")

/-! ## Concrete sample data for evaluations and witnesses -/

/-- A fully populated, valid sample event (the spec's end-to-end
scenario's first event: campaign C1, meta, day 1, 1000 impressions). -/
def sampleEvent : CampaignEvent :=
  { id := "e1", campaignId := "c1", platform := "meta", eventType := "stats"
  , impressions := 1000, clicks := 50, conversions := 10, spend := 50
  , revenue := 100, eventTime := 86400, region := "all", currency := "USD"
  , deduplicationKey := "k1", receivedAt := 1, processedAt := 1 }

/-- The spec scenario's second event: same bucket, distinct
deduplication key, 500 impressions. -/
def sampleEventB : CampaignEvent :=
  { sampleEvent with
    id := "e2", impressions := 500, clicks := 25, conversions := 5,
    spend := 25, revenue := 50, deduplicationKey := "k2", processedAt := 2 }

/-- The database state after the two sample events arrive as two
separate appends (two `ProcessEvent` calls, hence two insert blocks). -/
def sampleState : CHState :=
  (CHState.init.insertEvents [sampleEvent]).insertEvents [sampleEventB]

/-- An event with both `campaignId` and `platform` absent. -/
def eventMissingBoth : CampaignEvent :=
  { sampleEvent with campaignId := uuidNil, platform := "" }

/-- A processing environment delivering `sampleEvent` with a cold
deduplication store and a healthy ClickHouse. -/
def sampleEnv : Env :=
  { raw := some sampleEvent, dedupAnswer := false, storeOk := true
  , genId := "g1", nowReceived := 100, nowProcessed := 200 }

/-- A processing environment delivering the doubly invalid event. -/
def envMissingBoth : Env :=
  { sampleEnv with raw := some eventMissingBoth }

/-- Sample insights query parameters with no region pointer. -/
def paramsRegionAbsent : CampaignInsightsParams :=
  { campaignId := "11111111-1111-1111-1111-111111111111"
  , startDate := some ⟨2024, 1, 1⟩, endDate := some ⟨2024, 1, 31⟩
  , platform := some "meta", region := none, granularity := "daily" }

/-- The same parameters with a pointer to an empty region string:
`buildInsightsQuery` treats both identically. -/
def paramsRegionEmpty : CampaignInsightsParams :=
  { paramsRegionAbsent with region := some "" }


/-! ## Infrastructure lemmas -/

lemma insightKey_data (r : CampaignInsights) : dataKey r.data = insightKey r := rfl

lemma mem_campaignInsightsInsert {T : List CampaignInsights} {r x : CampaignInsights}
    (hx : x ∈ campaignInsightsInsert T r) : x ∈ T ∨ x = r := by
  unfold campaignInsightsInsert replacingInsert at hx
  split at hx
  · obtain ⟨y, hy, hxy⟩ := List.mem_map.1 hx
    split at hxy
    · exact Or.inr hxy.symm
    · exact Or.inl (hxy ▸ hy)
  · rcases List.mem_append.1 hx with h | h
    · exact Or.inl h
    · exact Or.inr (List.mem_singleton.1 h)

lemma insert_map_data {T : List CampaignInsights} {r : CampaignInsights}
    (h : ∀ x ∈ T, x.updatedAt ≤ r.updatedAt) :
    (campaignInsightsInsert T r).map CampaignInsights.data =
      overrideRow (T.map CampaignInsights.data) r.data := by
  unfold campaignInsightsInsert replacingInsert overrideRow
  have hex : (∃ x ∈ T, insightKey x = insightKey r) ↔
      (∃ y ∈ T.map CampaignInsights.data, dataKey y = dataKey r.data) := by
    simp only [List.mem_map]
    constructor
    · rintro ⟨x, hx, hk⟩
      exact ⟨x.data, ⟨x, hx, rfl⟩, by simp [insightKey_data, hk]⟩
    · rintro ⟨y, ⟨x, hx, rfl⟩, hk⟩
      exact ⟨x, hx, by simpa [insightKey_data] using hk⟩
  by_cases hc : ∃ x ∈ T, insightKey x = insightKey r
  · rw [if_pos hc, if_pos (hex.1 hc)]
    simp only [List.map_map]
    refine List.map_congr_left ?_
    intro x hx
    simp only [Function.comp_apply]
    by_cases hk : insightKey x = insightKey r
    · rw [if_pos ⟨hk, h x hx⟩,
        if_pos (show dataKey x.data = dataKey r.data by
          rw [insightKey_data, insightKey_data, hk])]
    · rw [if_neg (fun hcc => hk hcc.1),
        if_neg (show ¬dataKey x.data = dataKey r.data by
          rw [insightKey_data, insightKey_data]; exact hk)]
  · rw [if_neg hc, if_neg (fun hcc => hc (hex.2 hcc))]
    simp

lemma fold_insert_map_data (rows : List CampaignInsights) (T : List CampaignInsights)
    (c : Nat) (hrows : ∀ r ∈ rows, r.updatedAt = c)
    (hT : ∀ x ∈ T, x.updatedAt ≤ c) :
    (rows.foldl campaignInsightsInsert T).map CampaignInsights.data =
      (rows.map CampaignInsights.data).foldl overrideRow
        (T.map CampaignInsights.data) := by
  induction rows generalizing T with
  | nil => rfl
  | cons r rs ih =>
    simp only [List.foldl_cons, List.map_cons]
    rw [← insert_map_data (fun x hx => (hrows r (by simp)).symm ▸ hT x hx)]
    exact ih _ (fun r' hr' => hrows r' (by simp [hr']))
      (fun x hx => by
        rcases mem_campaignInsightsInsert hx with h | h
        · exact hT x h
        · exact h ▸ (hrows r (by simp)).le)

lemma keyAbsorbed_self (T : List InsightData) (r : InsightData) :
    keyAbsorbed (overrideRow T r) r := by
  unfold overrideRow keyAbsorbed
  by_cases hc : ∃ x ∈ T, dataKey x = dataKey r
  · rw [if_pos hc]
    obtain ⟨x, hx, hk⟩ := hc
    constructor
    · refine ⟨r, ?_, rfl⟩
      exact List.mem_map.2 ⟨x, hx, by rw [if_pos hk]⟩
    · intro y hy _
      obtain ⟨z, _, hzy⟩ := List.mem_map.1 hy
      by_cases hz : dataKey z = dataKey r
      · rw [if_pos hz] at hzy; exact hzy.symm
      · rw [if_neg hz] at hzy
        subst hzy
        exact absurd (by assumption) hz
  · rw [if_neg hc]
    constructor
    · exact ⟨r, by simp, rfl⟩
    · intro y hy hk
      rcases List.mem_append.1 hy with h | h
      · exact absurd ⟨y, h, hk⟩ hc
      · exact List.mem_singleton.1 h

lemma keyAbsorbed_override_ne {T : List InsightData} {r r' : InsightData}
    (hne : dataKey r' ≠ dataKey r) (h : keyAbsorbed T r) :
    keyAbsorbed (overrideRow T r') r := by
  obtain ⟨⟨x, hx, hk⟩, hall⟩ := h
  unfold overrideRow keyAbsorbed
  by_cases hc : ∃ y ∈ T, dataKey y = dataKey r'
  · rw [if_pos hc]
    constructor
    · refine ⟨x, List.mem_map.2 ⟨x, hx, ?_⟩, hk⟩
      rw [if_neg (fun hxx => hne (hxx.symm.trans hk))]
    · intro y hy hyk
      obtain ⟨z, hz, hzy⟩ := List.mem_map.1 hy
      by_cases hzk : dataKey z = dataKey r'
      · rw [if_pos hzk] at hzy
        exact absurd (hzy ▸ hyk) hne
      · rw [if_neg hzk] at hzy
        exact hall y (hzy ▸ hz) hyk
  · rw [if_neg hc]
    refine ⟨⟨x, List.mem_append.2 (Or.inl hx), hk⟩, ?_⟩
    intro y hy hyk
    rcases List.mem_append.1 hy with h | h
    · exact hall y h hyk
    · rw [List.mem_singleton.1 h] at hyk ⊢
      exact absurd hyk hne

lemma override_absorbed {T : List InsightData} {r : InsightData}
    (h : keyAbsorbed T r) : overrideRow T r = T := by
  obtain ⟨hex, hall⟩ := h
  unfold overrideRow
  rw [if_pos hex]
  refine List.map_congr_left ?_ |>.trans (List.map_id T)
  intro x hx
  by_cases hk : dataKey x = dataKey r
  · rw [if_pos hk]; exact (hall x hx hk).symm
  · rw [if_neg hk]; rfl

lemma foldl_override_absorbed {R : List InsightData} {T : List InsightData}
    (h : ∀ r ∈ R, keyAbsorbed T r) : R.foldl overrideRow T = T := by
  induction R with
  | nil => rfl
  | cons r rs ih =>
    simp only [List.foldl_cons]
    rw [override_absorbed (h r (by simp))]
    exact ih (fun r' hr' => h r' (by simp [hr']))

lemma keyAbsorbed_foldl_ne {R : List InsightData} {T : List InsightData}
    {r : InsightData} (hne : ∀ r' ∈ R, dataKey r' ≠ dataKey r)
    (h : keyAbsorbed T r) : keyAbsorbed (R.foldl overrideRow T) r := by
  induction R generalizing T with
  | nil => exact h
  | cons x xs ih =>
    simp only [List.foldl_cons]
    exact ih (fun r' hr' => hne r' (by simp [hr']))
      (keyAbsorbed_override_ne (hne x (by simp)) h)

lemma all_absorbed_after_foldl {R : List InsightData} {T : List InsightData}
    (hnd : (R.map dataKey).Nodup) :
    ∀ r ∈ R, keyAbsorbed (R.foldl overrideRow T) r := by
  induction R generalizing T with
  | nil => simp
  | cons x xs ih =>
    simp only [List.map_cons, List.nodup_cons] at hnd
    intro r hr
    rcases List.mem_cons.1 hr with h | h
    · subst h
      simp only [List.foldl_cons]
      refine keyAbsorbed_foldl_ne ?_ (keyAbsorbed_self T r)
      intro r' hr' hk
      exact hnd.1 (hk ▸ List.mem_map_of_mem dataKey hr')
    · simp only [List.foldl_cons]
      exact ih hnd.2 r h

lemma foldl_override_idem {R : List InsightData} {T : List InsightData}
    (hnd : (R.map dataKey).Nodup) :
    R.foldl overrideRow (R.foldl overrideRow T) = R.foldl overrideRow T :=
  foldl_override_absorbed (all_absorbed_after_foldl hnd)

lemma bucketKeys_nodup_aux (evs : List CampaignEvent)
    (acc : List (UUID × Nat × String × String)) (hacc : acc.Nodup) :
    (evs.foldl (fun ks e => if bucketKey e ∈ ks then ks else ks ++ [bucketKey e])
      acc).Nodup := by
  induction evs generalizing acc with
  | nil => exact hacc
  | cons e es ih =>
    simp only [List.foldl_cons]
    by_cases h : bucketKey e ∈ acc
    · rw [if_pos h]; exact ih acc hacc
    · rw [if_neg h]
      exact ih _ (by simp [List.nodup_append, hacc, h])

lemma bucketKeys_nodup (evs : List CampaignEvent) : (bucketKeys evs).Nodup :=
  bucketKeys_nodup_aux evs [] List.nodup_nil

lemma mem_reaggregationRows_updatedAt {events : List CampaignEvent} {cid : UUID}
    {t0 t1 t : Nat} {r : CampaignInsights}
    (hr : r ∈ reaggregationRows events cid t0 t1 t) : r.updatedAt = t := by
  unfold reaggregationRows at hr
  obtain ⟨k, _, rfl⟩ := List.mem_map.1 hr
  rfl

lemma reaggregationRows_map_data (events : List CampaignEvent) (cid : UUID)
    (t0 t1 t t' : Nat) :
    (reaggregationRows events cid t0 t1 t).map CampaignInsights.data =
      (reaggregationRows events cid t0 t1 t').map CampaignInsights.data := by
  unfold reaggregationRows
  simp only [List.map_map]
  exact List.map_congr_left (fun k _ => rfl)

lemma reaggregationRows_keys_nodup (events : List CampaignEvent) (cid : UUID)
    (t0 t1 t : Nat) :
    (((reaggregationRows events cid t0 t1 t).map CampaignInsights.data).map
      dataKey).Nodup := by
  unfold reaggregationRows
  simp only [List.map_map]
  have h : (bucketKeys (reaggMatched events cid t0 t1)).map
      (dataKey ∘ CampaignInsights.data ∘ fun k =>
        reaggregationRow (bucketEvents (reaggMatched events cid t0 t1) k) k t) =
      (bucketKeys (reaggMatched events cid t0 t1)).map id :=
    List.map_congr_left (fun k _ => rfl)
  rw [h, List.map_id]
  exact bucketKeys_nodup _

lemma mem_foldl_insert {rows T : List CampaignInsights} {x : CampaignInsights}
    (hx : x ∈ rows.foldl campaignInsightsInsert T) : x ∈ T ∨ x ∈ rows := by
  induction rows generalizing T with
  | nil => exact Or.inl hx
  | cons r rs ih =>
    simp only [List.foldl_cons] at hx
    rcases ih hx with h | h
    · rcases mem_campaignInsightsInsert h with h' | h'
      · exact Or.inl h'
      · exact Or.inr (by simp [h'])
    · exact Or.inr (by simp [h])

lemma reagg_insights_data (s : CHState) (hw : WellClocked s) (cid : UUID)
    (t0 t1 : Nat) :
    ((s.triggerReaggregation cid t0 t1).campaignInsights).map CampaignInsights.data =
      ((reaggregationRows s.campaignEvents cid t0 t1 0).map
        CampaignInsights.data).foldl overrideRow
        (s.campaignInsights.map CampaignInsights.data) := by
  show ((reaggregationRows s.campaignEvents cid t0 t1 s.clock).foldl
      campaignInsightsInsert s.campaignInsights).map CampaignInsights.data = _
  rw [fold_insert_map_data _ _ s.clock
    (fun r hr => mem_reaggregationRows_updatedAt hr)
    (fun x hx => (hw x hx).le),
    reaggregationRows_map_data s.campaignEvents cid t0 t1 s.clock 0]

lemma wellClocked_reagg {s : CHState} (hw : WellClocked s) (cid : UUID)
    (t0 t1 : Nat) : WellClocked (s.triggerReaggregation cid t0 t1) := by
  intro r hr
  show r.updatedAt < s.clock + 1
  rcases mem_foldl_insert hr with h | h
  · exact Nat.lt_succ_of_lt (hw r h)
  · rw [mem_reaggregationRows_updatedAt h]
    exact Nat.lt_succ_self _

lemma wellClocked_iter {st : CHState} (hw : WellClocked st) (cid : UUID)
    (t0 t1 : Nat) :
    ∀ n, WellClocked ((fun s : CHState => s.triggerReaggregation cid t0 t1)^[n] st) := by
  intro n
  induction n with
  | zero => exact hw
  | succ n ih =>
    rw [Function.iterate_succ_apply']
    exact wellClocked_reagg ih cid t0 t1

lemma events_iter (st : CHState) (cid : UUID) (t0 t1 : Nat) :
    ∀ n, ((fun s : CHState => s.triggerReaggregation cid t0 t1)^[n] st).campaignEvents =
      st.campaignEvents := by
  intro n
  induction n with
  | zero => rfl
  | succ n ih =>
    rw [Function.iterate_succ_apply']
    exact ih

lemma foldl_add_nonneg_int (f : CampaignEvent → Int) (evs : List CampaignEvent)
    (a : Int) (h : ∀ e ∈ evs, 0 ≤ f e) (ha : 0 ≤ a) :
    0 ≤ evs.foldl (fun s e => s + f e) a := by
  induction evs generalizing a with
  | nil => exact ha
  | cons e es ih =>
    exact ih _ (fun e' he' => h e' (by simp [he'])) (add_nonneg ha (h e (by simp)))

lemma foldl_add_nonneg_rat (f : CampaignEvent → Rat) (evs : List CampaignEvent)
    (a : Rat) (h : ∀ e ∈ evs, 0 ≤ f e) (ha : 0 ≤ a) :
    0 ≤ evs.foldl (fun s e => s + f e) a := by
  induction evs generalizing a with
  | nil => exact ha
  | cons e es ih =>
    exact ih _ (fun e' he' => h e' (by simp [he'])) (add_nonneg ha (h e (by simp)))

set_option maxHeartbeats 2000000 in
set_option maxRecDepth 10000 in
lemma renderFilters_inj (f g : Bool × Bool × Bool × Bool × Bool)
    (h : renderFilters f = renderFilters g) : f = g := by
  revert h
  revert f g
  decide

lemma renderFlags_inj (f g : Bool × Bool × Bool × Bool × Bool)
    (h : renderFlags f = renderFlags g) : f = g := by
  apply renderFilters_inj
  have hd := congrArg String.data h
  simp only [renderFlags, String.data_append] at hd
  have h1 := List.append_cancel_right hd
  have h2 := List.append_cancel_left h1
  exact String.ext h2

lemma buildInsightsQuery_fst (p : CampaignInsightsParams) :
    (buildInsightsQuery p).1 = renderFlags (queryFlags p) := by
  rcases p with ⟨cid, sd, ed, pf, rg, gr⟩
  rcases rg with _ | rv
  · by_cases h1 : cid ≠ uuidNil <;> rcases sd <;> rcases ed <;> rcases pf <;>
      simp [buildInsightsQuery, renderFlags, renderFilters, queryFlags, h1,
        String.append_assoc]
  · by_cases h1 : cid ≠ uuidNil <;> by_cases h2 : rv ≠ "" <;>
      rcases sd <;> rcases ed <;> rcases pf <;>
      simp [buildInsightsQuery, renderFlags, renderFilters, queryFlags, h1, h2,
        String.append_assoc]

lemma getCacheKey_eq_keyFromParts (p : CampaignInsightsParams) :
    getCacheKey p = keyFromParts (queryFlags p) ((buildInsightsQuery p).2)
      p.region.isSome p.granularity := by
  rcases p with ⟨cid, sd, ed, pf, rg, gr⟩
  rcases rg with _ | rv
  · by_cases h1 : cid = uuidNil <;> by_cases h3 : gr = "" <;>
      rcases sd <;> rcases ed <;> rcases pf <;>
      simp [buildInsightsQuery, getCacheKey, keyFromParts, queryFlags, argStr,
        argDate, h1, h3, String.append_assoc, -String.reduceAppend]
  · by_cases h1 : cid = uuidNil <;> by_cases h2 : rv = "" <;>
      by_cases h3 : gr = "" <;> rcases sd <;> rcases ed <;> rcases pf <;>
      simp [buildInsightsQuery, getCacheKey, keyFromParts, queryFlags, argStr,
        argDate, h1, h2, h3, String.append_assoc, -String.reduceAppend]

lemma validateEvent_characterize (genId : UUID) (now : Nat) (e : CampaignEvent) :
    (validateEvent genId now e = .error .missingCampaignID ↔
      e.campaignId = uuidNil) ∧
    (validateEvent genId now e = .error .missingPlatform ↔
      e.campaignId ≠ uuidNil ∧ e.platform = "") ∧
    (validateEvent genId now e = .error .missingEventTime ↔
      e.campaignId ≠ uuidNil ∧ e.platform ≠ "" ∧ e.eventTime = 0) ∧
    (validateEvent genId now e = .error .missingDeduplicationKey ↔
      e.campaignId ≠ uuidNil ∧ e.platform ≠ "" ∧ e.eventTime ≠ 0 ∧
        e.deduplicationKey = "") ∧
    ((∃ e', validateEvent genId now e = .ok e') ↔
      e.campaignId ≠ uuidNil ∧ e.platform ≠ "" ∧ e.eventTime ≠ 0 ∧
        e.deduplicationKey ≠ "") := by
  unfold validateEvent
  by_cases hid : e.id = uuidNil <;>
    simp only [hid, if_true, if_false, ite_true, ite_false] <;>
    split_ifs <;> simp_all

/-! ## Claim theorems -/

/-- C1: the claim says the incremental path recomputes each bucket's row
from the complete matching event set on every append.  Evaluating the
model at the spec's own end-to-end scenario shows the opposite: after the
two sample events arrive in two separate appends, the stored events of
the bucket sum to 1500 impressions, but the surviving aggregate row
records only the 500 impressions of the last inserted block — the
materialized view aggregates each inserted block alone and the
`ReplacingMergeTree` target keeps only the newest row per key. -/
theorem incrementalAggregateReflectsOnlyLastBlock :
    (sampleState.insightsFor ("c1", 1, "meta", "all")).map
        CampaignInsights.impressions = [500] ∧
    (mvAggregationRow
        (bucketEvents sampleState.campaignEvents ("c1", 1, "meta", "all"))
        ("c1", 1, "meta", "all") 0).impressions = 1500 ∧
    (500 : Int) ≠ 1500 := by
  decide

/-- C2: appending the same event twice with the same deduplication key
(hence the same `(campaignId, eventTime, deduplicationKey)` sorting key)
and different `processedAt` values, in either order, leaves exactly one
logical row in the event log — the one with the greater `processedAt` —
and one aggregate row whose values (excluding `updatedAt`) are those of
that single logical event, counted once. -/
theorem duplicateAppendIdempotent (e : CampaignEvent) (p q : Nat) (hpq : p ≠ q) :
    (((CHState.init.insertEvents [{ e with processedAt := p }]).insertEvents
        [{ e with processedAt := q }]).campaignEvents =
      [{ e with processedAt := max p q }] ∧
     ((CHState.init.insertEvents [{ e with processedAt := q }]).insertEvents
        [{ e with processedAt := p }]).campaignEvents =
      [{ e with processedAt := max p q }]) ∧
    (((CHState.init.insertEvents [{ e with processedAt := p }]).insertEvents
        [{ e with processedAt := q }]).campaignInsights.map CampaignInsights.data =
      [(mvAggregationRow [{ e with processedAt := max p q }] (bucketKey e) 0).data] ∧
     ((CHState.init.insertEvents [{ e with processedAt := q }]).insertEvents
        [{ e with processedAt := p }]).campaignInsights.map CampaignInsights.data =
      [(mvAggregationRow [{ e with processedAt := max p q }] (bucketKey e) 0).data]) := by
  refine ⟨⟨?_, ?_⟩, ?_, ?_⟩ <;>
    simp only [CHState.insertEvents, CHState.init, List.foldl, campaignEventsInsert,
      replacingInsert, mvBlockRows, bucketKeys, bucketEvents, campaignInsightsInsert] <;>
    simp [eventOrderKey, Nat.max_def, insightKey, bucketKey, mvAggregationRow,
      CampaignInsights.data, sumImpressions, sumClicks, sumConversions, sumSpend,
      sumRevenue, List.filter] <;>
    (repeat' split) <;> first | rfl | (exfalso; omega)

/-- Witness for C2 at a concrete event and versions 1 and 2. -/
theorem duplicateAppendIdempotent_witness :
    ((CHState.init.insertEvents [{ sampleEvent with processedAt := 1 }]).insertEvents
        [{ sampleEvent with processedAt := 2 }]).campaignEvents =
      [{ sampleEvent with processedAt := max 1 2 }] :=
  (duplicateAppendIdempotent sampleEvent 1 2 (by decide)).1.1

/-- C3: for a fixed stored event set, triggering reaggregation any number
of times yields an aggregate table that is byte-identical, row for row,
to the table after a single call, once the `updatedAt` field is erased. -/
theorem reaggregationConvergent (st : CHState) (hw : WellClocked st)
    (cid : UUID) (t0 t1 : Nat) (n : Nat) :
    (((fun s : CHState => s.triggerReaggregation cid t0 t1)^[n + 1]
        st).campaignInsights).map CampaignInsights.data =
      ((st.triggerReaggregation cid t0 t1).campaignInsights).map
        CampaignInsights.data := by
  induction n with
  | zero => rfl
  | succ n ih =>
    rw [Function.iterate_succ_apply',
      reagg_insights_data _ (wellClocked_iter hw cid t0 t1 (n + 1)) cid t0 t1,
      events_iter st cid t0 t1 (n + 1), ih,
      reagg_insights_data st hw cid t0 t1]
    exact foldl_override_idem (reaggregationRows_keys_nodup st.campaignEvents cid t0 t1 0)

/-- Witness for C3: two reaggregation calls on a concrete one-event state
equal one call, excluding `updatedAt`. -/
theorem reaggregationConvergent_witness :
    WellClocked (CHState.init.insertEvents [sampleEvent]) ∧
    (((fun s : CHState => s.triggerReaggregation "c1" 0 200000)^[2]
        (CHState.init.insertEvents [sampleEvent])).campaignInsights).map
        CampaignInsights.data =
      (((CHState.init.insertEvents [sampleEvent]).triggerReaggregation "c1" 0
          200000).campaignInsights).map CampaignInsights.data :=
  ⟨by decide, reaggregationConvergent _ (by decide) "c1" 0 200000 1⟩

/-- C4: over events with non-negative metrics (the invariant the
validator's clamping establishes), each derived ratio is 0 when its
denominator sums to 0 and equals the exact quotient of the sums
otherwise; the guarded conditionals mean no division by zero is ever
evaluated, and the reaggregation path computes the identical row. -/
theorem ratioZeroPolicy (evs : List CampaignEvent)
    (k : UUID × Nat × String × String) (t : Nat)
    (hnn : ∀ e ∈ evs, 0 ≤ e.impressions ∧ 0 ≤ e.clicks ∧ 0 ≤ e.conversions ∧
      0 ≤ e.spend ∧ 0 ≤ e.revenue) :
    ((mvAggregationRow evs k t).impressions = 0 →
      (mvAggregationRow evs k t).ctr = 0) ∧
    ((mvAggregationRow evs k t).clicks = 0 →
      (mvAggregationRow evs k t).cpc = 0 ∧
      (mvAggregationRow evs k t).conversionRate = 0) ∧
    ((mvAggregationRow evs k t).conversions = 0 →
      (mvAggregationRow evs k t).cpa = 0) ∧
    ((mvAggregationRow evs k t).spend = 0 →
      (mvAggregationRow evs k t).roas = 0) ∧
    ((mvAggregationRow evs k t).impressions ≠ 0 →
      (mvAggregationRow evs k t).ctr =
        ((mvAggregationRow evs k t).clicks : Rat) /
          ((mvAggregationRow evs k t).impressions : Rat)) ∧
    ((mvAggregationRow evs k t).clicks ≠ 0 →
      (mvAggregationRow evs k t).cpc =
        (mvAggregationRow evs k t).spend /
          ((mvAggregationRow evs k t).clicks : Rat) ∧
      (mvAggregationRow evs k t).conversionRate =
        ((mvAggregationRow evs k t).conversions : Rat) /
          ((mvAggregationRow evs k t).clicks : Rat)) ∧
    ((mvAggregationRow evs k t).conversions ≠ 0 →
      (mvAggregationRow evs k t).cpa =
        (mvAggregationRow evs k t).spend /
          ((mvAggregationRow evs k t).conversions : Rat)) ∧
    ((mvAggregationRow evs k t).spend ≠ 0 →
      (mvAggregationRow evs k t).roas =
        (mvAggregationRow evs k t).revenue / (mvAggregationRow evs k t).spend) ∧
    reaggregationRow evs k t = mvAggregationRow evs k t := by
  have hI : 0 ≤ sumImpressions evs :=
    foldl_add_nonneg_int (fun e => e.impressions) evs 0
      (fun e he => (hnn e he).1) le_rfl
  have hC : 0 ≤ sumClicks evs :=
    foldl_add_nonneg_int (fun e => e.clicks) evs 0
      (fun e he => (hnn e he).2.1) le_rfl
  have hV : 0 ≤ sumConversions evs :=
    foldl_add_nonneg_int (fun e => e.conversions) evs 0
      (fun e he => (hnn e he).2.2.1) le_rfl
  have hS : 0 ≤ sumSpend evs :=
    foldl_add_nonneg_rat (fun e => e.spend) evs 0
      (fun e he => (hnn e he).2.2.2.1) le_rfl
  refine ⟨?_, ?_, ?_, ?_, ?_, ?_, ?_, ?_, rfl⟩
  · intro h0
    simp only [mvAggregationRow] at h0
    have hng : ¬ sumImpressions evs > 0 := by omega
    simp [mvAggregationRow, hng]
  · intro h0
    simp only [mvAggregationRow] at h0
    have hng : ¬ sumClicks evs > 0 := by omega
    constructor <;> simp [mvAggregationRow, hng]
  · intro h0
    simp only [mvAggregationRow] at h0
    have hng : ¬ sumConversions evs > 0 := by omega
    simp [mvAggregationRow, hng]
  · intro h0
    simp only [mvAggregationRow] at h0
    have hng : ¬ sumSpend evs > 0 := by rw [h0]; exact lt_irrefl 0
    simp [mvAggregationRow, hng]
  · intro hne
    simp only [mvAggregationRow] at hne
    have hpos : sumImpressions evs > 0 := lt_of_le_of_ne hI (Ne.symm hne)
    simp [mvAggregationRow, hpos]
  · intro hne
    simp only [mvAggregationRow] at hne
    have hpos : sumClicks evs > 0 := lt_of_le_of_ne hC (Ne.symm hne)
    constructor <;> simp [mvAggregationRow, hpos]
  · intro hne
    simp only [mvAggregationRow] at hne
    have hpos : sumConversions evs > 0 := lt_of_le_of_ne hV (Ne.symm hne)
    simp [mvAggregationRow, hpos]
  · intro hne
    simp only [mvAggregationRow] at hne
    have hpos : sumSpend evs > 0 := lt_of_le_of_ne hS (Ne.symm hne)
    simp [mvAggregationRow, hpos]

/-- Witness for C4 at the concrete sample events. -/
theorem ratioZeroPolicy_witness :
    (mvAggregationRow [sampleEvent, sampleEventB] ("c1", 1, "meta", "all") 0).ctr =
      ((mvAggregationRow [sampleEvent, sampleEventB] ("c1", 1, "meta", "all")
          0).clicks : Rat) /
        ((mvAggregationRow [sampleEvent, sampleEventB] ("c1", 1, "meta", "all")
          0).impressions : Rat) :=
  (ratioZeroPolicy [sampleEvent, sampleEventB] ("c1", 1, "meta", "all") 0
    (by decide)).2.2.2.2.1 (by decide)

/-- C5: the per-bucket sum-and-ratio computation of the materialized view
and that of the reaggregation query are the same function of the event
set (identical rows excluding `updatedAt`), and for a block of events
lying inside the reaggregated campaign and date range the two paths
produce identical row lists excluding `updatedAt`. -/
theorem mvAndReaggregationAgree (block : List CampaignEvent) (cid : UUID)
    (t0 t1 t u : Nat)
    (h : ∀ e ∈ block, e.campaignId = cid ∧ t0 ≤ e.eventTime ∧ e.eventTime ≤ t1) :
    (mvBlockRows block t).map CampaignInsights.data =
      (reaggregationRows block cid t0 t1 u).map CampaignInsights.data ∧
    ∀ (evs : List CampaignEvent) (k : UUID × Nat × String × String) (v w : Nat),
      (mvAggregationRow evs k v).data = (reaggregationRow evs k w).data := by
  constructor
  · have hm : reaggMatched block cid t0 t1 = block := by
      unfold reaggMatched
      exact List.filter_eq_self.2 (fun e he => by simpa using h e he)
    unfold mvBlockRows reaggregationRows
    rw [hm]
    simp only [List.map_map]
    exact List.map_congr_left (fun kk _ => rfl)
  · intro evs k v w
    rfl

/-- Witness for C5 at the two concrete sample events. -/
theorem mvAndReaggregationAgree_witness :
    (mvBlockRows [sampleEvent, sampleEventB] 0).map CampaignInsights.data =
      (reaggregationRows [sampleEvent, sampleEventB] "c1" 0 200000 5).map
        CampaignInsights.data :=
  (mvAndReaggregationAgree [sampleEvent, sampleEventB] "c1" 0 200000 0 5
    (by decide)).1

/-- C6 counterexample: on an event missing both `campaignId` and
`platform`, validation fails with `ErrMissingCampaignID`, not
`ErrMissingPlatform`, although `platform` is absent — so "fails with
`ErrMissingPlatform` precisely when `platform` is absent" is false as
stated. -/
theorem validateEventOrderCounterexample :
    validateEvent "g1" 100 eventMissingBoth =
      .error ValidationErr.missingCampaignID ∧
    eventMissingBoth.platform = "" ∧
    ValidationErr.missingCampaignID ≠ ValidationErr.missingPlatform :=
  ⟨rfl, rfl, by decide⟩

/-- C6 (amended): `validateEvent` checks the required fields in the order
campaignId, platform, eventTime, deduplicationKey and fails with the
error of the first absent field; it succeeds precisely when all four are
present; and an event whose `campaignId` is absent is never stored in the
event log and never changes the database state (hence never contributes
to any aggregate row). -/
theorem validateEventFirstMissingField (genId : UUID) (now : Nat)
    (e : CampaignEvent) :
    (validateEvent genId now e = .error .missingCampaignID ↔
      e.campaignId = uuidNil) ∧
    (validateEvent genId now e = .error .missingPlatform ↔
      e.campaignId ≠ uuidNil ∧ e.platform = "") ∧
    (validateEvent genId now e = .error .missingEventTime ↔
      e.campaignId ≠ uuidNil ∧ e.platform ≠ "" ∧ e.eventTime = 0) ∧
    (validateEvent genId now e = .error .missingDeduplicationKey ↔
      e.campaignId ≠ uuidNil ∧ e.platform ≠ "" ∧ e.eventTime ≠ 0 ∧
        e.deduplicationKey = "") ∧
    ((∃ e', validateEvent genId now e = .ok e') ↔
      e.campaignId ≠ uuidNil ∧ e.platform ≠ "" ∧ e.eventTime ≠ 0 ∧
        e.deduplicationKey ≠ "") ∧
    (∀ (env : Env) (st : CHState), env.raw = some e → e.campaignId = uuidNil →
      (processEvent env st).2.2 = st ∧
        ∀ ev : CampaignEvent, Action.store ev ∉ (processEvent env st).1) := by
  obtain ⟨h1, h2, h3, h4, h5⟩ := validateEvent_characterize genId now e
  refine ⟨h1, h2, h3, h4, h5, ?_⟩
  intro env st hraw hcid
  have hv : validateEvent env.genId env.nowReceived e =
      .error .missingCampaignID :=
    ((validateEvent_characterize env.genId env.nowReceived e).1).2 hcid
  unfold processEvent
  rw [hraw]
  by_cases hd : env.dedupAnswer <;> simp [hd, hv]

/-- Witness for C6: the doubly invalid event leaves the database
untouched. -/
theorem validateEventFirstMissingField_witness :
    (processEvent envMissingBoth CHState.init).2.2 = CHState.init :=
  ((validateEventFirstMissingField "g1" 100 eventMissingBoth).2.2.2.2.2
    envMissingBoth CHState.init rfl rfl).1

/-- C7 counterexample: on a concrete well-formed message the trace begins
with the deduplication-store check and validation comes second — the
claimed order (validation before the deduplication check) is false. -/
theorem dedupCheckPrecedesValidationCounterexample :
    (workerStep sampleEnv CHState.init).1 =
      [Action.dedupCheck "k1", Action.validate,
       Action.store { sampleEvent with processedAt := 200 },
       Action.markProcessed "k1", Action.commit] ∧
    (workerStep sampleEnv CHState.init).1.head? =
      some (Action.dedupCheck "k1") := by
  decide

/-- C7 (amended): for every delivered message the pipeline's steps occur
in the order deduplication-store check, then validation, then event-log
append, then deduplication-store mark, then broker offset commit; every
execution's trace is one of the four prefix shapes of that order
(duplicate skipped and committed, validation failure, append failure, or
full success). -/
theorem pipelineStepOrder (env : Env) (st : CHState) (e : CampaignEvent)
    (h : env.raw = some e) :
    (workerStep env st).1 = [Action.dedupCheck e.deduplicationKey, Action.commit] ∨
    (∃ verr, (workerStep env st).1 =
        [Action.dedupCheck e.deduplicationKey, Action.validate] ∧
      validateEvent env.genId env.nowReceived e = .error verr) ∨
    (∃ e', (workerStep env st).1 =
      [Action.dedupCheck e.deduplicationKey, Action.validate, Action.store e']) ∨
    (∃ e', (workerStep env st).1 =
      [Action.dedupCheck e.deduplicationKey, Action.validate, Action.store e',
       Action.markProcessed e'.deduplicationKey, Action.commit]) := by
  unfold workerStep processEvent
  rw [h]
  by_cases hd : env.dedupAnswer
  · simp [hd]
  · rcases hv : validateEvent env.genId env.nowReceived e with verr | e1
    · simp [hd, hv]
    · by_cases hs : env.storeOk
      · simp [hd, hv, hs]
      · simp [hd, hv, hs]

/-- Witness for C7 at the concrete sample environment. -/
theorem pipelineStepOrder_witness :
    (workerStep sampleEnv CHState.init).1 =
      [Action.dedupCheck sampleEvent.deduplicationKey, Action.commit] ∨
    (∃ verr, (workerStep sampleEnv CHState.init).1 =
        [Action.dedupCheck sampleEvent.deduplicationKey, Action.validate] ∧
      validateEvent sampleEnv.genId sampleEnv.nowReceived sampleEvent =
        .error verr) ∨
    (∃ e', (workerStep sampleEnv CHState.init).1 =
      [Action.dedupCheck sampleEvent.deduplicationKey, Action.validate,
       Action.store e']) ∨
    (∃ e', (workerStep sampleEnv CHState.init).1 =
      [Action.dedupCheck sampleEvent.deduplicationKey, Action.validate,
       Action.store e', Action.markProcessed e'.deduplicationKey,
       Action.commit]) :=
  pipelineStepOrder sampleEnv CHState.init sampleEvent rfl

set_option linter.unnecessarySeqFocus false in
/-- C8: whenever the deduplication key is marked processed, the
environment's store succeeded and the trace is exactly the full success
shape, in which the event-log append precedes the mark and the final
state contains the durably appended event. -/
theorem markOnlyAfterDurableStore (env : Env) (st : CHState)
    (e : CampaignEvent) (k : String) (h : env.raw = some e)
    (hm : Action.markProcessed k ∈ (workerStep env st).1) :
    env.storeOk = true ∧
    ∃ e', (workerStep env st).1 =
        [Action.dedupCheck e.deduplicationKey, Action.validate, Action.store e',
         Action.markProcessed e'.deduplicationKey, Action.commit] ∧
      k = e'.deduplicationKey ∧
      (workerStep env st).2 = st.insertEvents [e'] := by
  unfold workerStep processEvent at hm ⊢
  rw [h] at hm ⊢
  by_cases hd : env.dedupAnswer
  · simp [hd] at hm
  · rcases hv : validateEvent env.genId env.nowReceived e with verr | e1
    · simp [hd, hv] at hm
    · by_cases hs : env.storeOk
      · refine ⟨hs, { e1 with processedAt := env.nowProcessed }, ?_, ?_, ?_⟩ <;>
          simp [hd, hv, hs] at hm ⊢ <;> try simp [hm]
      · simp [hd, hv, hs] at hm

/-- Witness for C8: a concrete trace containing the mark, with the store
confirmed successful. -/
theorem markOnlyAfterDurableStore_witness :
    Action.markProcessed "k1" ∈ (workerStep sampleEnv CHState.init).1 ∧
    sampleEnv.storeOk = true :=
  ⟨by decide,
    (markOnlyAfterDurableStore sampleEnv CHState.init sampleEvent "k1" rfl
      (by decide)).1⟩

set_option maxRecDepth 10000 in
/-- C9 counterexample: parameters with no region pointer and parameters
with a pointer to the empty region string build the identical database
query (text and arguments) yet receive different cache keys — the claim
that logically identical queries map to the same key is false as
stated. -/
theorem cacheKeyDivergesOnSameQuery :
    buildInsightsQuery paramsRegionAbsent = buildInsightsQuery paramsRegionEmpty ∧
    getCacheKey paramsRegionAbsent ≠ getCacheKey paramsRegionEmpty := by
  decide

/-- C9 (amended): `getCacheKey` is a deterministic function of the
parameters, and any two parameter values that build the same database
query and additionally agree on `granularity` (which the query ignores)
and on whether a region pointer is present (the query cannot distinguish
an absent region from a present-but-empty one) receive the same cache
key. -/
theorem cacheKeyDeterminedByQuery (p q : CampaignInsightsParams)
    (hq : buildInsightsQuery p = buildInsightsQuery q)
    (hg : p.granularity = q.granularity)
    (hr : p.region.isSome = q.region.isSome) :
    getCacheKey p = getCacheKey q := by
  have hf : queryFlags p = queryFlags q := by
    apply renderFlags_inj
    rw [← buildInsightsQuery_fst, ← buildInsightsQuery_fst, hq]
  rw [getCacheKey_eq_keyFromParts, getCacheKey_eq_keyFromParts, hf, hg, hr,
    show (buildInsightsQuery p).2 = (buildInsightsQuery q).2 from
      congrArg Prod.snd hq]

/-- Witness for C9 at concrete parameters. -/
theorem cacheKeyDeterminedByQuery_witness :
    getCacheKey paramsRegionEmpty = getCacheKey paramsRegionEmpty :=
  cacheKeyDeterminedByQuery paramsRegionEmpty paramsRegionEmpty rfl rfl rfl

/-- C10: `GetCampaignInsights` writes to the cache only non-empty row
lists, and a deserialized-empty or absent cached value falls through to
the database, whose rows are returned — so a query whose answer is zero
rows always reaches the database. -/
theorem emptyResultNeverCached (cached : Option (List CampaignInsights))
    (dbRows : List CampaignInsights) :
    (∀ w, (getCampaignInsights cached dbRows).cacheWrite = some w → w ≠ []) ∧
    ((cached = none ∨ cached = some []) →
      (getCampaignInsights cached dbRows).usedDb = true ∧
      (getCampaignInsights cached dbRows).result = dbRows) := by
  constructor
  · intro w hw
    rcases cached with _ | v
    · by_cases hd : dbRows.length > 0
      · simp [getCampaignInsights, hd] at hw
        subst hw
        exact List.length_pos.1 hd
      · simp [getCampaignInsights, hd] at hw
    · by_cases hv : v.length > 0
      · simp [getCampaignInsights, hv] at hw
      · by_cases hd : dbRows.length > 0
        · simp [getCampaignInsights, hv, hd] at hw
          subst hw
          exact List.length_pos.1 hd
        · simp [getCampaignInsights, hv, hd] at hw
  · rintro (rfl | rfl)
    · simp [getCampaignInsights]
    · simp [getCampaignInsights]

/-- Witness for C10: an empty cached value falls through to the (empty)
database result. -/
theorem emptyResultNeverCached_witness :
    (getCampaignInsights (some []) []).usedDb = true ∧
    (getCampaignInsights (some []) []).result = [] :=
  (emptyResultNeverCached (some []) []).2 (Or.inr rfl)

end CampaignAnalytics
